import Mathlib

/-!
Shallow embedding of the conversation-tab state machine of the chat client
(source: the renderer module holding `createTab`, `closeTab`, `sendMessage`,
`saveTabs`, `restoreTabs`, `loadConversationHistory` and the
`onMessageStream` / `onMessageComplete` handlers; the second of the two
near-duplicate copies in the file, the one with per-tab `tabType`).

Modelling conventions:
- DOM elements are modelled by the data they carry: a rendered message is a
  record of its role and the innerHTML of its `.message-content` div;
  `tab.streamingElement` (a DOM reference into the placeholder message) is
  modelled as the index of that message in the tab's message list.
- The external markdown library (`marked.parse`) is an opaque parameter
  `render : String → String` threaded through the functions that call it.
- Bridge calls (`window.claude.*`) are nondeterministic inputs, passed as
  explicit parameters describing the one response the awaited call yields.
- `crypto.randomUUID()` results are passed as explicit parameters.
- JS strings are Lean `String`s; `trim`, the global-replace chains of
  `escapeHtml`, and truthiness tests are defined below over the character
  data so that everything evaluates inside the kernel.
- The purely visual side effects (renderTabs, button toggling, scrolling,
  terminal writes, console logging) have no state in the model.
-/

namespace OpenClaude

/-- JS `String.prototype.trim()`: strip whitespace from both ends. -/
def jsTrim (s : String) : String :=
  String.mk (((s.data.dropWhile Char.isWhitespace).reverse.dropWhile
    Char.isWhitespace).reverse)

/-- Global single-character replacement, the semantics of each
`.replace(/c/g, r)` step in the source's `escapeHtml`. -/
def replaceChar (c : Char) (r : List Char) : List Char → List Char
  | [] => []
  | a :: rest =>
      if a = c then r ++ replaceChar c r rest else a :: replaceChar c r rest

/-- `escapeHtml`: `&` then `<` then `>` then `"` are replaced by their HTML
entities, in that order, as in the source's chained `.replace` calls. -/
def escapeHtml (s : String) : String :=
  String.mk (replaceChar '"' "&quot;".data
    (replaceChar '>' "&gt;".data
      (replaceChar '<' "&lt;".data
        (replaceChar '&' "&amp;".data s.data))))

/-- `parseMarkdown` (markdown module, called here always without citations):
returns `""` on falsy input, otherwise hands the text to the external
`marked.parse`, modelled by the opaque `render`. -/
def parseMarkdown (render : String → String) (t : String) : String :=
  if t = "" then "" else render t

inductive Role where
  | user
  | assistant
deriving DecidableEq, Repr

/-- A rendered message: the `.message` element's role class and the
innerHTML of its `.message-content` child. -/
structure Msg where
  role : Role
  content : String
deriving DecidableEq, Repr

inductive TabType where
  | gui
  | cli
deriving DecidableEq, Repr

/-- `UploadedAttachment`: an upload result plus the locally generated id. -/
structure UploadedAttachment where
  id : String
  document_id : String
  file_name : String
  file_size : Nat
  file_type : String
  file_url : Option String
  extracted_content : Option String
deriving DecidableEq, Repr

/-- The attachment projection built in `sendMessage` (every field of the
pending attachment except the local `id`). -/
structure AttachmentPayload where
  document_id : String
  file_name : String
  file_size : Nat
  file_type : String
  file_url : Option String
  extracted_content : Option String
deriving DecidableEq, Repr

def toPayload (a : UploadedAttachment) : AttachmentPayload :=
  { document_id := a.document_id
    file_name := a.file_name
    file_size := a.file_size
    file_type := a.file_type
    file_url := a.file_url
    extracted_content := a.extracted_content }

/-- `ChatTab`. `messages` holds the rendered message records;
`streamingElement` is the index into `messages` of the message whose
content div the DOM reference points at (the `terminal` handle, pure DOM,
is not modelled). -/
structure ChatTab where
  id : String
  name : String
  accountId : String
  conversationId : Option String
  parentMessageUuid : Option String
  model : String
  messages : List Msg
  isLoading : Bool
  streamingElement : Option Nat
  pendingAttachments : List UploadedAttachment
  tabType : TabType
deriving DecidableEq, Repr

/-- The module-level mutable state: the tab list and the active-tab id. -/
structure AppState where
  tabs : List ChatTab
  activeTabId : Option String
deriving DecidableEq, Repr

def MAX_TABS : Nat := 3

def canCreateNewTab (st : AppState) : Bool :=
  st.tabs.length < MAX_TABS

/-- `getActiveTab` as an index: `tabs.find(t => t.id === activeTabId)`. -/
def activeTabIdx (st : AppState) : Option Nat :=
  match st.activeTabId with
  | none => none
  | some aid => st.tabs.findIdx? (fun t => t.id = aid)

/-- `createTab(accountId, name?, tabType)`: allocates a tab with default
fields, appends it and makes it active. `tabId` stands for the
`crypto.randomUUID()` result. The default name is `CLI n` / `Chat n` with
`n = tabs.length + 1`; a supplied empty name is falsy and also falls back. -/
def createTab (st : AppState) (accountId : String) (name : Option String)
    (tabType : TabType) (tabId : String) : AppState :=
  let fallback :=
    (if tabType = TabType.cli then "CLI " else "Chat ") ++
      toString (st.tabs.length + 1)
  let tabName :=
    match name with
    | some n => if n = "" then fallback else n
    | none => fallback
  let tab : ChatTab :=
    { id := tabId
      name := tabName
      accountId := accountId
      conversationId := none
      parentMessageUuid := none
      model := "claude-opus-4-5-20251101"
      messages := []
      isLoading := false
      streamingElement := none
      pendingAttachments := []
      tabType := tabType }
  { st with tabs := st.tabs ++ [tab], activeTabId := some tabId }

/-- The user-facing create operation: the new-tab entry point runs only when
`canCreateNewTab()` holds, and then reaches `createTab`; at capacity nothing
happens. -/
def createGuarded (st : AppState) (accountId : String) (name : Option String)
    (tabType : TabType) (tabId : String) : AppState :=
  if canCreateNewTab st then createTab st accountId name tabType tabId else st

/-- A sequence of create operations, applied left to right. -/
def applyCreates (st : AppState)
    (reqs : List (String × Option String × TabType × String)) : AppState :=
  reqs.foldl (fun s r => createGuarded s r.1 r.2.1 r.2.2.1 r.2.2.2) st

/-- Placeholder tab used only to totalise the (always in-bounds) indexing
`tabs[Math.max(0, tabIndex - 1)]` in `closeTab`. -/
def dummyTab : ChatTab :=
  { id := ""
    name := ""
    accountId := ""
    conversationId := none
    parentMessageUuid := none
    model := ""
    messages := []
    isLoading := false
    streamingElement := none
    pendingAttachments := []
    tabType := TabType.gui }

/-- `closeTab(tabId)`: refuses when only one tab remains; otherwise splices
the tab out and, when it was active, activates
`tabs[Math.max(0, tabIndex - 1)]` of the post-splice array. -/
def closeTab (st : AppState) (tabId : String) : AppState :=
  if st.tabs.length = 1 then st
  else
    match st.tabs.findIdx? (fun t => t.id = tabId) with
    | none => st
    | some i =>
        let tabs' := st.tabs.eraseIdx i
        let active' :=
          if st.activeTabId = some tabId then
            some ((tabs'.getD (i - 1) dummyTab).id)
          else st.activeTabId
        { st with tabs := tabs', activeTabId := active' }

/-- `switchTab(tabId)`: no-op when already active or absent; otherwise moves
the active pointer. -/
def switchTab (st : AppState) (tabId : String) : AppState :=
  if st.activeTabId = some tabId then st
  else if (st.tabs.findIdx? (fun t => t.id = tabId)).isSome then
    { st with activeTabId := some tabId }
  else st

/-- Result object of `window.claude.createConversation(model)`. -/
structure ConvInfo where
  conversationId : String
  parentMessageUuid : Option String
deriving DecidableEq, Repr

/-- The one outcome of the awaited `window.claude.sendMessage` call. -/
inductive SendResult where
  | ok
  | err (msg : String)
deriving DecidableEq, Repr

/-- Environment of a `sendMessage` run: what the awaited bridge calls
return. `createConv = none` models `createConversation` throwing. -/
structure SendEnv where
  createConv : Option ConvInfo
  sendRes : SendResult
deriving DecidableEq, Repr

/-- The outgoing `window.claude.sendMessage(...)` call's arguments. -/
structure OutgoingSend where
  conversationId : String
  text : String
  parentUuid : String
  attachments : List AttachmentPayload
deriving DecidableEq, Repr

/-- The inline error markup written into the streaming placeholder in the
catch branch of `sendMessage`. -/
def errorSpan (e : String) : String :=
  "<span style=\"color: #ff453a;\">Error: " ++ escapeHtml e ++ "</span>"

/-- `sendMessage()`, returning the new state together with the outgoing
bridge call (if one was issued). Step for step:
trimmed empty input → return; null `conversationId` → await
`createConversation`, on throw return with nothing mutated; append the
escaped user message; snapshot `pendingAttachments` into payloads and clear
the pending list; append the raw empty assistant placeholder and bind
`streamingElement` to it; set `isLoading`; issue the bridge send with
`parentMessageUuid || conversationId`; on throw overwrite the placeholder
content with the error span and clear `isLoading` (the catch branch touches
nothing else). -/
def sendMessage (env : SendEnv) (st : AppState) (inputValue : String) :
    AppState × Option OutgoingSend :=
  match activeTabIdx st with
  | none => (st, none)
  | some i =>
      let tab := st.tabs.getD i dummyTab
      let message := jsTrim inputValue
      if message = "" then (st, none)
      else
        let convStep : Option ChatTab :=
          match tab.conversationId with
          | none =>
              match env.createConv with
              | none => none
              | some ci =>
                  some { tab with
                    conversationId := some ci.conversationId
                    parentMessageUuid := ci.parentMessageUuid }
          | some _ => some tab
        match convStep with
        | none => (st, none)
        | some tab1 =>
            let tab2 := { tab1 with
              messages := tab1.messages ++
                [({ role := Role.user, content := escapeHtml message } : Msg)] }
            let atts := tab2.pendingAttachments.map toPayload
            let tab3 := { tab2 with pendingAttachments := [] }
            let idx := tab3.messages.length
            let tab4 := { tab3 with
              messages := tab3.messages ++
                [({ role := Role.assistant, content := "" } : Msg)]
              streamingElement := some idx
              isLoading := true }
            let convId := tab4.conversationId.getD ""
            let parentArg :=
              match tab4.parentMessageUuid with
              | some p => if p = "" then convId else p
              | none => convId
            let out : OutgoingSend :=
              { conversationId := convId
                text := message
                parentUuid := parentArg
                attachments := atts }
            let tab5 :=
              match env.sendRes with
              | SendResult.ok => tab4
              | SendResult.err e =>
                  { tab4 with
                    messages :=
                      tab4.messages.set idx
                        { role := Role.assistant, content := errorSpan e }
                    isLoading := false }
            ({ st with tabs := st.tabs.set i tab5 }, some out)

/-- Payload of a `message-stream` push event. -/
structure StreamData where
  conversationId : String
  fullText : String
deriving DecidableEq, Repr

/-- Payload of a `message-complete` push event. -/
structure CompleteData where
  conversationId : String
  fullText : String
  messageUuid : String
deriving DecidableEq, Repr

/-- The `onMessageStream` handler: find the first tab whose
`conversationId` matches; when it has a bound `streamingElement`, overwrite
that element's innerHTML with `parseMarkdown(data.fullText)`; otherwise do
nothing. -/
def onMessageStream (render : String → String) (st : AppState)
    (data : StreamData) : AppState :=
  match st.tabs.findIdx?
      (fun t => t.conversationId = some data.conversationId) with
  | none => st
  | some i =>
      let tab := st.tabs.getD i dummyTab
      match tab.streamingElement with
      | none => st
      | some j =>
          let old := tab.messages.getD j
            { role := Role.assistant, content := "" }
          { st with
            tabs := st.tabs.set i
              { tab with
                messages := tab.messages.set j
                  { old with
                    content := parseMarkdown render data.fullText } } }

/-- A sequence of `message-stream` events applied in receipt order. -/
def applyStreamEvents (render : String → String) (st : AppState)
    (evs : List StreamData) : AppState :=
  evs.foldl (onMessageStream render) st

/-- The `onMessageComplete` handler: on the first tab whose
`conversationId` matches, advance `parentMessageUuid`, clear `isLoading`
and `streamingElement`. -/
def onMessageComplete (st : AppState) (data : CompleteData) : AppState :=
  match st.tabs.findIdx?
      (fun t => t.conversationId = some data.conversationId) with
  | none => st
  | some i =>
      let tab := st.tabs.getD i dummyTab
      { st with
        tabs := st.tabs.set i
          { tab with
            parentMessageUuid := some data.messageUuid
            isLoading := false
            streamingElement := none } }

/-- One tab entry of the persisted snapshot, as `restoreTabs` reads it: the
durable fields written by `saveTabs`, plus the legacy `displayMode` field
the migration branch still accepts. A malformed array entry (`null`, or any
non-object on which the property reads throw) is represented by `none` at
the use site. -/
structure SavedEntry where
  id : String
  name : String
  accountId : String
  conversationId : Option String
  parentMessageUuid : Option String
  model : String
  tabType : Option TabType
  displayMode : Option TabType
deriving DecidableEq, Repr

/-- The snapshot object `saveTabs` serializes for one tab. -/
def tabToEntry (t : ChatTab) : SavedEntry :=
  { id := t.id
    name := t.name
    accountId := t.accountId
    conversationId := t.conversationId
    parentMessageUuid := t.parentMessageUuid
    model := t.model
    tabType := some t.tabType
    displayMode := none }

/-- The two local-storage slots (`chatTabs`, `activeTabId`). `none` for
`chatTabs` covers both a missing key and a snapshot whose top-level JSON
parse fails (either way no entry is processed). -/
structure Storage where
  chatTabs : Option (List (Option SavedEntry))
  activeTabId : Option String
deriving DecidableEq, Repr

/-- `saveTabs()`: whole-snapshot write of every tab's durable fields plus
`activeTabId || ""`. -/
def saveTabs (st : AppState) : Storage :=
  { chatTabs := some (st.tabs.map (fun t => some (tabToEntry t)))
    activeTabId := some (st.activeTabId.getD "") }

/-- The tab object the `restoreTabs` loop builds from one entry, including
the `tabType` / legacy `displayMode` migration and the transient-field
resets. -/
def entryToTab (e : SavedEntry) : ChatTab :=
  let tt :=
    match e.tabType with
    | some t => t
    | none =>
        match e.displayMode with
        | some d => d
        | none => TabType.gui
  { id := e.id
    name := e.name
    accountId := e.accountId
    conversationId := e.conversationId
    parentMessageUuid := e.parentMessageUuid
    model := e.model
    messages := []
    isLoading := false
    streamingElement := none
    pendingAttachments := []
    tabType := tt }

/-- The `for (const tabData of parsed)` loop of `restoreTabs`. The loop body
has no per-item try/catch: the first malformed entry throws out to the
single catch around the whole loop, so the tabs pushed so far survive and
every later entry is abandoned. The Bool records whether the loop was
aborted that way. -/
def restoreEntries : List (Option SavedEntry) → List ChatTab × Bool
  | [] => ([], false)
  | none :: _ => ([], true)
  | some e :: rest =>
      let r := restoreEntries rest
      (entryToTab e :: r.1, r.2)

/-- `restoreTabs()` (the persistence part, run at startup on empty state):
rebuild the tab list from the snapshot; when the loop completes, adopt the
saved active id if truthy and present, else fall back to the first tab;
when the loop threw, the active assignment is skipped. If no tab was
restored, create the single default tab `Chat 1` against the bridge's
active account (`defaultAccountId = none` models `getActiveAccount`
failing, in which case nothing is created). -/
def restoreTabs (storage : Storage) (defaultAccountId : Option String)
    (newTabId : String) : AppState :=
  let st1 : AppState :=
    match storage.chatTabs with
    | none => { tabs := [], activeTabId := none }
    | some entries =>
        let r := restoreEntries entries
        if r.2 then { tabs := r.1, activeTabId := none }
        else
          let active :=
            match storage.activeTabId with
            | some a =>
                if a ≠ "" ∧ (r.1.findIdx? (fun t => t.id = a)).isSome then
                  some a
                else if r.1.length > 0 then some ((r.1.getD 0 dummyTab).id)
                else none
            | none =>
                if r.1.length > 0 then some ((r.1.getD 0 dummyTab).id)
                else none
          { tabs := r.1, activeTabId := active }
  if st1.tabs.length = 0 then
    match defaultAccountId with
    | some acc => createTab st1 acc (some "Chat 1") TabType.gui newTabId
    | none => st1
  else st1

/-- One block of a history message's `content` array. -/
structure ContentBlock where
  type : String
  text : Option String
deriving DecidableEq, Repr

/-- One entry of the fetched conversation history. `created_at` is the
timestamp value the sort comparator works on
(`new Date(x).getTime()`). -/
structure HistoryMsg where
  uuid : String
  text : Option String
  sender : String
  created_at : Int
  content : Option (List ContentBlock)
deriving DecidableEq, Repr

/-- The `loadConversation` response: the conversation name and its message
list (`none` models a response without a recognizable messages array, or no
data at all). -/
structure ConversationData where
  name : Option String
  chat_messages : Option (List HistoryMsg)
deriving DecidableEq, Repr

/-- Ascending-timestamp comparison used by the history sort comparator. -/
def byTime (a b : HistoryMsg) : Bool :=
  a.created_at ≤ b.created_at

/-- Insert into an already time-sorted list (stable position). -/
def insertByTime (m : HistoryMsg) : List HistoryMsg → List HistoryMsg
  | [] => [m]
  | x :: xs => if byTime m x then m :: x :: xs else x :: insertByTime m xs

/-- The ascending stable sort `[...messages].sort((a, b) => ta - tb)`. -/
def sortByTime : List HistoryMsg → List HistoryMsg
  | [] => []
  | m :: rest => insertByTime m (sortByTime rest)

/-- The inner loop that collects `textParts` from a `content` array: blocks
with `type === "text"` and truthy `text`. -/
def blockTextsLoop : List ContentBlock → List String
  | [] => []
  | b :: rest =>
      match b.text with
      | some t =>
          if b.type = "text" ∧ t ≠ "" then t :: blockTextsLoop rest
          else blockTextsLoop rest
      | none => blockTextsLoop rest

/-- `textParts.join("\n")`. -/
def joinNewline : List String → String
  | [] => ""
  | [s] => s
  | s :: rest => s ++ "\n" ++ joinNewline rest

/-- `msg.text || ""`, falling back to the joined text blocks when empty. -/
def extractText (m : HistoryMsg) : String :=
  let t0 :=
    match m.text with
    | some t => t
    | none => ""
  if t0 ≠ "" then t0
  else
    match m.content with
    | some bs => joinNewline (blockTextsLoop bs)
    | none => ""

/-- What one history entry contributes to the rendered output: skipped when
no text could be extracted or the sender is neither `human` nor
`assistant`; otherwise rendered through `addMessage` (user text escaped,
assistant text through `parseMarkdown`). -/
def renderHistoryMsg (render : String → String) (m : HistoryMsg) :
    Option Msg :=
  let t := extractText m
  if t = "" then none
  else if m.sender = "human" then
    some { role := Role.user, content := escapeHtml t }
  else if m.sender = "assistant" then
    some { role := Role.assistant, content := parseMarkdown render t }
  else none

/-- The render loop over the sorted history messages. -/
def renderHistoryLoop (render : String → String) :
    List HistoryMsg → List Msg
  | [] => []
  | m :: rest =>
      match renderHistoryMsg render m with
      | some r => r :: renderHistoryLoop render rest
      | none => renderHistoryLoop render rest

/-- `loadConversationHistory(tab)`: returns the updated tab and the list of
messages rendered into the conversation view, in render order. Skips
outright when the tab has no conversation or already has messages, or when
the response carries no message array. Otherwise sorts ascending by
timestamp, renders each entry (skipping the textless ones), advances
`parentMessageUuid` to the last sorted entry's uuid, and adopts the
conversation name when it is truthy with a truthy trim
(`data = none` models a null response or the fetch throwing: both leave
the tab unchanged). -/
def loadConversationHistory (render : String → String) (tab : ChatTab)
    (data : Option ConversationData) : ChatTab × List Msg :=
  if tab.conversationId.isNone ∨ tab.messages ≠ [] then (tab, [])
  else
    match data with
    | none => (tab, [])
    | some d =>
        match d.chat_messages with
        | none => (tab, [])
        | some msgs =>
            let sorted := sortByTime msgs
            let rendered := renderHistoryLoop render sorted
            let tab1 :=
              match sorted.getLast? with
              | some lastm =>
                  { tab with parentMessageUuid := some lastm.uuid }
              | none => tab
            let tab2 :=
              match d.name with
              | some n =>
                  if n ≠ "" ∧ jsTrim n ≠ "" then { tab1 with name := n }
                  else tab1
              | none => tab1
            (tab2, rendered)

/-! ## Helper lemmas -/

theorem createGuarded_length_le (st : AppState) (acc : String)
    (nm : Option String) (tt : TabType) (tid : String)
    (h : st.tabs.length ≤ MAX_TABS) :
    (createGuarded st acc nm tt tid).tabs.length ≤ MAX_TABS := by
  unfold createGuarded canCreateNewTab
  by_cases hlt : st.tabs.length < MAX_TABS
  · rw [if_pos (by simpa using hlt)]
    simp only [createTab, List.length_append, List.length_cons,
      List.length_nil]
    omega
  · simp [hlt, h]

theorem getD_eraseIdx_pred (l : List ChatTab) (i : Nat) (d : ChatTab) :
    (l.eraseIdx i).getD (i - 1) d =
      if i = 0 then l.getD 1 d else l.getD (i - 1) d := by
  rw [List.getD_eq_getElem?_getD, List.getD_eq_getElem?_getD,
    List.getD_eq_getElem?_getD, List.getElem?_eraseIdx]
  rcases Nat.eq_zero_or_pos i with h0 | hpos
  · simp [h0]
  · have : i - 1 < i := Nat.sub_lt hpos Nat.one_pos
    simp [this, Nat.pos_iff_ne_zero.mp hpos]

/-- Default used when reading a message slot whose index is known to be in
bounds. -/
def dummyMsg : Msg :=
  { role := Role.assistant, content := "" }

theorem findIdx_set_self {α : Type} (p : α → Bool) (a : α) (ha : p a = true) :
    ∀ (l : List α) (i : Nat), l.findIdx p = i → i < l.length →
      (l.set i a).findIdx p = i := by
  intro l
  induction l with
  | nil => intro i _ h; simp at h
  | cons x xs ih =>
      intro i hidx hlen
      cases i with
      | zero =>
          have hx : p x = true := by
            cases hpx : p x
            · simp [List.findIdx_cons, hpx] at hidx
            · rfl
          simp [List.set, List.findIdx_cons, ha]
      | succ n =>
          have hx : p x = false := by
            cases hpx : p x
            · rfl
            · simp [List.findIdx_cons, hpx] at hidx
          have hxs : xs.findIdx p = n := by
            simp [List.findIdx_cons, hx] at hidx
            omega
          have hlen' : n < xs.length := by
            simp at hlen; omega
          simp [List.set_cons_succ, List.findIdx_cons, hx, ha,
            ih n hxs hlen']

theorem findIdx?_set_self {α : Type} (p : α → Bool) (a : α) (l : List α)
    (i : Nat) (h : l.findIdx? p = some i) (ha : p a = true) :
    (l.set i a).findIdx? p = some i := by
  rw [List.findIdx?_eq_some_iff_findIdx_eq] at h ⊢
  obtain ⟨hlen, hidx⟩ := h
  exact ⟨by simpa using hlen, findIdx_set_self p a ha l i hidx hlen⟩

theorem getD_set_self {α : Type} (l : List α) (i : Nat) (a d : α)
    (h : i < l.length) : (l.set i a).getD i d = a := by
  rw [List.getD_eq_getElem?_getD, List.getElem?_set_self h]
  rfl

/-! ## Claims -/

/-- C1: a sequence of create operations never pushes the tab count above
`MAX_TABS` (3), and a create issued while the registry already holds
`MAX_TABS` tabs is a complete no-op: no tab added, no state changed, the
active pointer untouched. -/
theorem create_never_exceeds_MAX_TABS (st : AppState)
    (reqs : List (String × Option String × TabType × String))
    (acc : String) (nm : Option String) (tt : TabType) (tid : String)
    (hle : st.tabs.length ≤ MAX_TABS) :
    (applyCreates st reqs).tabs.length ≤ MAX_TABS ∧
    (st.tabs.length = MAX_TABS → createGuarded st acc nm tt tid = st) := by
  constructor
  · unfold applyCreates
    induction reqs generalizing st with
    | nil => simpa using hle
    | cons r rest ih =>
        simp only [List.foldl_cons]
        exact ih _ (createGuarded_length_le _ _ _ _ _ hle)
  · intro hfull
    unfold createGuarded canCreateNewTab
    simp [hfull, MAX_TABS]

/-- C1 witness: from a registry of three tabs, three more guarded creates
leave the count at three, and a single create at capacity returns the state
unchanged. -/
theorem create_never_exceeds_MAX_TABS_witness :
    let t1 := { dummyTab with id := "a" }
    let t2 := { dummyTab with id := "b" }
    let t3 := { dummyTab with id := "c" }
    let st : AppState := { tabs := [t1, t2, t3], activeTabId := some "c" }
    (applyCreates st [("acct", none, TabType.gui, "d"),
      ("acct", none, TabType.cli, "e"),
      ("acct", some "X", TabType.gui, "f")]).tabs.length ≤ MAX_TABS ∧
    (st.tabs.length = MAX_TABS →
      createGuarded st "acct" none TabType.gui "d" = st) := by
  exact create_never_exceeds_MAX_TABS _ _ "acct" none TabType.gui "d"
    (by decide)

/-- C4: `close(tabId)` with a single open tab is a no-op; with at least two
tabs and the tab present at index `i`, it removes exactly that tab, and
when the closed tab was active the new active tab is the one that preceded
it (the original tab at `i - 1`), or the first remaining tab (the original
second tab) when the closed tab was first; a non-active close leaves the
active pointer alone. -/
theorem closeTab_spec (st : AppState) (tid : String) (i : Nat)
    (h2 : 2 ≤ st.tabs.length)
    (hi : st.tabs.findIdx? (fun t => t.id = tid) = some i) :
    (∀ s : AppState, s.tabs.length = 1 → closeTab s tid = s) ∧
    (closeTab st tid).tabs = st.tabs.eraseIdx i ∧
    (closeTab st tid).tabs.length = st.tabs.length - 1 ∧
    (st.activeTabId = some tid →
      (i = 0 →
        (closeTab st tid).activeTabId = some ((st.tabs.getD 1 dummyTab).id)) ∧
      (0 < i →
        (closeTab st tid).activeTabId =
          some ((st.tabs.getD (i - 1) dummyTab).id))) ∧
    (st.activeTabId ≠ some tid →
      (closeTab st tid).activeTabId = st.activeTabId) := by
  have hne1 : ¬ st.tabs.length = 1 := by omega
  have hilt : i < st.tabs.length :=
    (List.findIdx?_eq_some_iff_findIdx_eq.mp hi).1
  refine ⟨?_, ?_, ?_, ?_, ?_⟩
  · intro s hs
    unfold closeTab
    simp [hs]
  · unfold closeTab
    simp [hne1, hi]
  · unfold closeTab
    simp [hne1, hi, List.length_eraseIdx, hilt]
  · intro hact
    unfold closeTab
    simp only [hne1, if_false, hi, hact, if_true]
    rw [getD_eraseIdx_pred]
    constructor
    · intro h0; simp [h0]
    · intro hpos; simp [Nat.pos_iff_ne_zero.mp hpos]
  · intro hact
    unfold closeTab
    simp [hne1, hi, hact]

/-- C4 witness: closing the sole tab is a no-op, and closing the active
middle tab of three removes it and activates its predecessor. -/
theorem closeTab_spec_witness :
    let t1 := { dummyTab with id := "a" }
    let t2 := { dummyTab with id := "b" }
    let t3 := { dummyTab with id := "c" }
    let st : AppState := { tabs := [t1, t2, t3], activeTabId := some "b" }
    (∀ s : AppState, s.tabs.length = 1 → closeTab s "b" = s) ∧
    (closeTab st "b").tabs = st.tabs.eraseIdx 1 ∧
    (closeTab st "b").tabs.length = st.tabs.length - 1 ∧
    (st.activeTabId = some "b" →
      (1 = 0 →
        (closeTab st "b").activeTabId = some ((st.tabs.getD 1 dummyTab).id)) ∧
      (0 < 1 →
        (closeTab st "b").activeTabId =
          some ((st.tabs.getD 0 dummyTab).id))) ∧
    (st.activeTabId ≠ some "b" →
      (closeTab st "b").activeTabId = st.activeTabId) := by
  exact closeTab_spec _ "b" 1 (by decide) (by decide)

theorem findIdx_prop {α : Type} (p : α → Bool) (d : α) :
    ∀ (l : List α) (i : Nat), l.findIdx p = i → i < l.length →
      p (l.getD i d) = true := by
  intro l
  induction l with
  | nil => intro i _ h; simp at h
  | cons x xs ih =>
      intro i hidx hlen
      cases i with
      | zero =>
          cases hpx : p x
          · simp [List.findIdx_cons, hpx] at hidx
          · simpa [List.getD]
      | succ n =>
          have hx : p x = false := by
            cases hpx : p x
            · rfl
            · simp [List.findIdx_cons, hpx] at hidx
          have hxs : xs.findIdx p = n := by
            simp [List.findIdx_cons, hx] at hidx
            omega
          have hlen' : n < xs.length := by
            simp at hlen; omega
          simpa [List.getD] using ih n hxs hlen'

theorem findIdx?_prop {α : Type} (p : α → Bool) (d : α) (l : List α)
    (i : Nat) (h : l.findIdx? p = some i) : p (l.getD i d) = true := by
  rw [List.findIdx?_eq_some_iff_findIdx_eq] at h
  exact findIdx_prop p d l i h.2 h.1

theorem findIdx?_lt_length {α : Type} {p : α → Bool} {l : List α} {i : Nat}
    (h : l.findIdx? p = some i) : i < l.length :=
  (List.findIdx?_eq_some_iff_findIdx_eq.mp h).1

/-- What a single `message-stream` event does when it finds its tab with a
bound streaming element: the lookup data is preserved and the placeholder's
content is overwritten with the render of this event's full text. -/
theorem onMessageStream_step (render : String → String) (st : AppState)
    (e : StreamData) (i j : Nat)
    (hfind : st.tabs.findIdx?
      (fun t => t.conversationId = some e.conversationId) = some i)
    (hstream : (st.tabs.getD i dummyTab).streamingElement = some j)
    (hj : j < (st.tabs.getD i dummyTab).messages.length) :
    ((onMessageStream render st e).tabs.findIdx?
        (fun t => t.conversationId = some e.conversationId) = some i) ∧
    ((onMessageStream render st e).tabs.getD i dummyTab).streamingElement =
      some j ∧
    ((onMessageStream render st e).tabs.getD i dummyTab).messages.length =
      (st.tabs.getD i dummyTab).messages.length ∧
    (((onMessageStream render st e).tabs.getD i dummyTab).messages.getD j
        dummyMsg).content = parseMarkdown render e.fullText := by
  have hilt : i < st.tabs.length := findIdx?_lt_length hfind
  have hconv :
      (st.tabs.getD i dummyTab).conversationId = some e.conversationId := by
    have := findIdx?_prop
      (fun t => t.conversationId = some e.conversationId) dummyTab _ _ hfind
    simpa using this
  unfold onMessageStream
  rw [hfind]
  simp only [hstream]
  refine ⟨?_, ?_, ?_, ?_⟩
  · exact findIdx?_set_self _ _ _ _ hfind (by simpa using hconv)
  · rw [getD_set_self _ _ _ _ hilt]
  · rw [getD_set_self _ _ _ _ hilt]
    simp
  · rw [getD_set_self _ _ _ _ hilt]
    simp only [getD_set_self _ _ _ _ hj]

/-- C6: stream events for a tab's in-flight send are pure replacements
applied in receipt order: one event leaves the placeholder holding the
render of exactly that event's cumulative text, and after any non-empty
ordered sequence of events for the same conversation the placeholder holds
the render of the last event's text (last write wins). -/
theorem streamEvents_last_write_wins (render : String → String)
    (st : AppState) (c : String) (i j : Nat) (evs : List StreamData)
    (hfind : st.tabs.findIdx?
      (fun t => t.conversationId = some c) = some i)
    (hstream : (st.tabs.getD i dummyTab).streamingElement = some j)
    (hj : j < (st.tabs.getD i dummyTab).messages.length)
    (hall : ∀ e ∈ evs, e.conversationId = c)
    (hne : evs ≠ []) :
    (∀ e : StreamData, e.conversationId = c →
      (((onMessageStream render st e).tabs.getD i dummyTab).messages.getD j
          dummyMsg).content = parseMarkdown render e.fullText) ∧
    (((applyStreamEvents render st evs).tabs.getD i dummyTab).messages.getD j
        dummyMsg).content = parseMarkdown render (evs.getLast hne).fullText := by
  constructor
  · intro e hc
    exact (onMessageStream_step render st e i j (hc ▸ hfind) hstream hj).2.2.2
  · induction evs generalizing st with
    | nil => exact absurd rfl hne
    | cons e rest ih =>
        have hce : e.conversationId = c := hall e (by simp)
        have step :=
          onMessageStream_step render st e i j (hce ▸ hfind) hstream hj
        cases rest with
        | nil => simpa [applyStreamEvents] using step.2.2.2
        | cons e2 rest2 =>
            have hrne : e2 :: rest2 ≠ [] := by simp
            have hall' : ∀ x ∈ e2 :: rest2, x.conversationId = c := by
              intro x hx
              exact hall x (by simp at hx ⊢; tauto)
            have hlast : (e :: e2 :: rest2).getLast hne =
                (e2 :: rest2).getLast hrne := List.getLast_cons hrne
            have happ : applyStreamEvents render st (e :: e2 :: rest2) =
                applyStreamEvents render (onMessageStream render st e)
                  (e2 :: rest2) := by
              simp [applyStreamEvents]
            rw [happ, hlast]
            exact ih (onMessageStream render st e)
              (hce ▸ step.1) step.2.1 (step.2.2.1 ▸ hj) hall' hrne

/-- C6 witness: on a one-tab state streaming for conversation `c`, the
events `H`, `He`, `Hel` leave the placeholder holding the render of
`Hel`, and a single event replaces the content with that event's text. -/
theorem streamEvents_last_write_wins_witness :
    let tab : ChatTab := { dummyTab with
      id := "t1", conversationId := some "c",
      messages := [{ role := Role.user, content := "q" }, dummyMsg],
      streamingElement := some 1, isLoading := true }
    let st : AppState := { tabs := [tab], activeTabId := some "t1" }
    let render : String → String := fun s => s
    let evs : List StreamData :=
      [{ conversationId := "c", fullText := "H" },
       { conversationId := "c", fullText := "He" },
       { conversationId := "c", fullText := "Hel" }]
    (∀ e : StreamData, e.conversationId = "c" →
      (((onMessageStream render st e).tabs.getD 0 dummyTab).messages.getD 1
          dummyMsg).content = parseMarkdown render e.fullText) ∧
    (((applyStreamEvents render st evs).tabs.getD 0 dummyTab).messages.getD 1
        dummyMsg).content =
      parseMarkdown render ((evs.getLast (by decide)).fullText) := by
  exact streamEvents_last_write_wins (fun s => s) _ "c" 0 1 _
    (by decide) (by decide) (by decide) (by decide) (by decide)

/-- C10: a `message-stream` event whose conversation matches no tab, or
whose first matching tab has no bound streaming element (nothing in flight
or already completed), changes nothing: the whole state is returned
untouched. -/
theorem onMessageStream_spurious_noop (render : String → String)
    (st : AppState) (data : StreamData)
    (h : (∀ t ∈ st.tabs, t.conversationId ≠ some data.conversationId) ∨
      ∃ i, st.tabs.findIdx?
          (fun t => t.conversationId = some data.conversationId) = some i ∧
        (st.tabs.getD i dummyTab).streamingElement = none) :
    onMessageStream render st data = st := by
  rcases h with hnone | ⟨i, hi, hs⟩
  · have : st.tabs.findIdx?
        (fun t => t.conversationId = some data.conversationId) = none := by
      rw [List.findIdx?_eq_none_iff]
      intro x hx
      simpa using hnone x hx
    unfold onMessageStream
    rw [this]
  · unfold onMessageStream
    rw [hi]
    simp only [hs]

/-- C10 witness: an event for an unknown conversation on a one-tab state
with a conversation in progress leaves the state exactly as it was. -/
theorem onMessageStream_spurious_noop_witness :
    let tab : ChatTab := { dummyTab with
      id := "t1", conversationId := some "c",
      messages := [dummyMsg], streamingElement := some 0, isLoading := true }
    let st : AppState := { tabs := [tab], activeTabId := some "t1" }
    onMessageStream (fun s => s) st
      { conversationId := "other", fullText := "x" } = st := by
  exact onMessageStream_spurious_noop (fun s => s) _ _
    (Or.inl (by decide))

theorem activeTabIdx_lt_length {st : AppState} {i : Nat}
    (h : activeTabIdx st = some i) : i < st.tabs.length := by
  unfold activeTabIdx at h
  cases hact : st.activeTabId with
  | none => rw [hact] at h; exact absurd h (by simp)
  | some aid => rw [hact] at h; exact findIdx?_lt_length h

/-- C8: when the active tab has no conversation yet and the bridge's
`createConversation` call fails, the send aborts with the whole state
untouched and no outgoing bridge send: no user message recorded, no
placeholder created, `isLoading`, `conversationId` and `parentMessageUuid`
all exactly as before (hence still `false` / `null` / `null`). -/
theorem sendMessage_conv_failure_aborts (env : SendEnv) (st : AppState)
    (input : String) (i : Nat)
    (hi : activeTabIdx st = some i)
    (hconv : (st.tabs.getD i dummyTab).conversationId = none)
    (hmsg : jsTrim input ≠ "")
    (hfail : env.createConv = none) :
    sendMessage env st input = (st, none) := by
  simp only [sendMessage, hi, if_neg hmsg, hconv, hfail]

/-- C8 witness: one fresh active tab, non-empty input, failing
`createConversation`: the send returns the state unchanged and issues
nothing. -/
theorem sendMessage_conv_failure_aborts_witness :
    let tab : ChatTab := { dummyTab with id := "t1", accountId := "acct" }
    let st : AppState := { tabs := [tab], activeTabId := some "t1" }
    let env : SendEnv :=
      { createConv := none, sendRes := SendResult.err "down" }
    sendMessage env st "hello" = (st, none) := by
  exact sendMessage_conv_failure_aborts _ _ "hello" 0
    (by decide) (by decide) (by decide) (by decide)

/-- C9: the attachment flush inside `sendMessage` is atomic: whenever the
send proceeds past conversation setup (in particular regardless of whether
the bridge send later succeeds or fails), the active tab's pending set is
empty immediately afterwards, and the outgoing message carries exactly the
payload projection of the set that was pending just before the flush. -/
theorem sendMessage_flush_atomic (env : SendEnv) (st : AppState)
    (input : String) (i : Nat)
    (hi : activeTabIdx st = some i)
    (hmsg : jsTrim input ≠ "")
    (hconv : (st.tabs.getD i dummyTab).conversationId ≠ none ∨
      env.createConv ≠ none) :
    ((sendMessage env st input).1.tabs.getD i
        dummyTab).pendingAttachments = [] ∧
    ∃ out, (sendMessage env st input).2 = some out ∧
      out.attachments =
        (st.tabs.getD i dummyTab).pendingAttachments.map toPayload := by
  have hilt : i < st.tabs.length := activeTabIdx_lt_length hi
  simp only [sendMessage, hi, if_neg hmsg]
  cases hc : (st.tabs.getD i dummyTab).conversationId with
  | none =>
      cases hcc : env.createConv with
      | none =>
          rcases hconv with h | h
          · exact absurd hc h
          · exact absurd hcc h
      | some ci =>
          cases env.sendRes <;>
            simp [List.getElem?_set_self hilt]
  | some cid =>
      cases env.sendRes <;>
        simp [List.getElem?_set_self hilt]

/-- C9 witness: an active tab holding one pending attachment and an open
conversation: after the send the pending set is empty and the outgoing
call carried exactly that attachment's payload. -/
theorem sendMessage_flush_atomic_witness :
    let att : UploadedAttachment :=
      { id := "l1", document_id := "d1", file_name := "a.txt",
        file_size := 10, file_type := "text/plain",
        file_url := some "u", extracted_content := none }
    let tab : ChatTab := { dummyTab with
      id := "t1", conversationId := some "c1",
      parentMessageUuid := some "p1", pendingAttachments := [att] }
    let st : AppState := { tabs := [tab], activeTabId := some "t1" }
    let env : SendEnv := { createConv := none, sendRes := SendResult.ok }
    ((sendMessage env st "hi").1.tabs.getD 0
        dummyTab).pendingAttachments = [] ∧
    ∃ out, (sendMessage env st "hi").2 = some out ∧
      out.attachments =
        (st.tabs.getD 0 dummyTab).pendingAttachments.map toPayload := by
  exact sendMessage_flush_atomic _ _ "hi" 0 (by decide) (by decide)
    (Or.inl (by decide))

/-- C2 (code behavior at the claimed error transition): a send whose bridge
call fails does replace the placeholder content with the error marker and
does set `isLoading` to `false`, but it never clears `streamingElement`:
the reference stays bound to the placeholder, so the claimed invariant
(`streamingElement` non-null only while `isLoading`) is violated in the
resulting state. Concrete run: one active tab with an open conversation,
input `hi`, bridge send fails with `network`. -/
theorem sendMessage_error_keeps_streamingElement :
    let tab : ChatTab := { dummyTab with
      id := "t1", conversationId := some "c1",
      parentMessageUuid := some "p1" }
    let st : AppState := { tabs := [tab], activeTabId := some "t1" }
    let env : SendEnv :=
      { createConv := none, sendRes := SendResult.err "network" }
    let st' := (sendMessage env st "hi").1
    (st'.tabs.getD 0 dummyTab).isLoading = false ∧
    (st'.tabs.getD 0 dummyTab).streamingElement = some 1 ∧
    ((st'.tabs.getD 0 dummyTab).messages.getD 1 dummyMsg).content =
      errorSpan "network" := by
  decide

/-- The spec's predicted image of one tab after a save/restore round trip:
every durable field kept, the transient fields (`messages`,
`streamingElement`, `isLoading`, plus the pending attachments) reset.
Stated from the spec's words, for comparison with what the code's
`saveTabs` / `restoreTabs` pair actually produces. -/
def stripTransient (t : ChatTab) : ChatTab :=
  { t with
    messages := []
    isLoading := false
    streamingElement := none
    pendingAttachments := [] }

theorem entryToTab_tabToEntry (t : ChatTab) :
    entryToTab (tabToEntry t) = stripTransient t := rfl

theorem restoreEntries_map_some (l : List ChatTab) :
    restoreEntries (l.map (fun t => some (tabToEntry t))) =
      (l.map stripTransient, false) := by
  induction l with
  | nil => rfl
  | cons t rest ih => simp [restoreEntries, ih, entryToTab_tabToEntry]

theorem restoreEntries_stops_at_malformed (pre : List SavedEntry)
    (suffix : List (Option SavedEntry)) :
    restoreEntries (pre.map some ++ none :: suffix) =
      (pre.map entryToTab, true) := by
  induction pre with
  | nil => rfl
  | cons e rest ih => simp [restoreEntries, ih]

/-- C5: a `saveTabs` snapshot read back by `restoreTabs` on otherwise empty
storage reproduces every tab with all seven durable fields intact and the
transient fields reset (`messages = []`, `streamingElement = null`,
`isLoading = false`), and restores the same active-tab id. -/
theorem save_restore_roundtrip (st : AppState) (a : String)
    (acc : Option String) (nid : String)
    (hact : st.activeTabId = some a) (hne : a ≠ "")
    (hmem : ∃ t ∈ st.tabs, t.id = a) :
    restoreTabs (saveTabs st) acc nid =
      { tabs := st.tabs.map stripTransient, activeTabId := some a } := by
  have hsome :
      ((st.tabs.map stripTransient).findIdx?
        (fun t => t.id = a)).isSome = true := by
    rw [List.findIdx?_isSome, List.any_eq_true]
    obtain ⟨t, htmem, htid⟩ := hmem
    exact ⟨stripTransient t, List.mem_map_of_mem _ htmem, by
      simp [stripTransient, htid]⟩
  have hlen : st.tabs.length ≠ 0 := by
    obtain ⟨t, htmem, _⟩ := hmem
    exact List.ne_nil_of_mem htmem |> fun h => by
      simpa [List.length_eq_zero] using h
  simp only [restoreTabs, saveTabs, hact, Option.getD_some,
    restoreEntries_map_some, Bool.false_eq_true, if_false, hne,
    ne_eq, not_false_iff, true_and, hsome, if_true]
  simp [hlen]

/-- C5 witness: two tabs carrying conversation state and transient
streaming state round-trip to the same durable fields with the transient
fields reset, and the active id survives. -/
theorem save_restore_roundtrip_witness :
    let att : UploadedAttachment :=
      { id := "l1", document_id := "d1", file_name := "a.txt",
        file_size := 10, file_type := "text/plain",
        file_url := none, extracted_content := some "x" }
    let t1 : ChatTab :=
      { id := "t1", name := "Chat 1", accountId := "acctA",
        conversationId := some "c1", parentMessageUuid := some "p1",
        model := "m1",
        messages := [{ role := Role.user, content := "hello" }],
        isLoading := true, streamingElement := some 0,
        pendingAttachments := [att], tabType := TabType.gui }
    let t2 : ChatTab :=
      { id := "t2", name := "CLI 2", accountId := "acctB",
        conversationId := none, parentMessageUuid := none,
        model := "m2", messages := [], isLoading := false,
        streamingElement := none, pendingAttachments := [],
        tabType := TabType.cli }
    let st : AppState := { tabs := [t1, t2], activeTabId := some "t2" }
    restoreTabs (saveTabs st) (some "acctA") "nid" =
      { tabs := st.tabs.map stripTransient, activeTabId := some "t2" } := by
  exact save_restore_roundtrip _ "t2" (some "acctA") "nid" rfl
    (by decide) (by decide)

/-- C3 counterexample: a snapshot whose first entry is malformed and whose
second entry is perfectly well-formed does NOT restore the well-formed
entry — the loop aborts at the malformed one, the restored set comes out
empty, and only the default tab (id `nid`) exists afterwards. This refutes
"every well-formed tab entry is still restored". -/
theorem restore_drops_wellformed_after_malformed :
    let e : SavedEntry :=
      { id := "t9", name := "Nine", accountId := "acct",
        conversationId := some "c9", parentMessageUuid := some "p9",
        model := "m", tabType := some TabType.gui, displayMode := none }
    let st := restoreTabs
      { chatTabs := some [none, some e], activeTabId := some "t9" }
      (some "acct") "nid"
    st.tabs.findIdx? (fun t => t.id = "t9") = none ∧
    st.tabs.length = 1 ∧
    (st.tabs.getD 0 dummyTab).id = "nid" := by
  decide

/-- C3 as amended: the restore loop has no per-item recovery — it processes
entries in order and the first malformed entry aborts the remainder, so
exactly the well-formed entries before it are restored and every entry
after it is dropped; the failure never crashes startup, and when the
restored set ends up empty a single default `Chat 1` tab is created
against the bridge's active account. -/
theorem restore_prefix_until_malformed (pre : List SavedEntry)
    (suffix : List (Option SavedEntry)) (act : Option String)
    (accId nid : String) :
    (restoreTabs
        { chatTabs := some (pre.map some ++ none :: suffix),
          activeTabId := act } (some accId) nid).tabs =
      if pre = [] then
        (createTab { tabs := [], activeTabId := none } accId
          (some "Chat 1") TabType.gui nid).tabs
      else pre.map entryToTab := by
  by_cases hpre : pre = []
  · subst hpre
    simp [restoreTabs, restoreEntries]
  · have hlen : (pre.map entryToTab).length ≠ 0 := by
      intro h
      exact hpre (by simpa using h)
    simp only [restoreTabs, restoreEntries_stops_at_malformed, if_true,
      hpre, if_false]
    simp [hpre]

theorem mem_insertByTime {a m : HistoryMsg} {l : List HistoryMsg} :
    a ∈ insertByTime m l ↔ a = m ∨ a ∈ l := by
  induction l with
  | nil => simp [insertByTime]
  | cons x xs ih =>
      by_cases h : byTime m x
      · simp [insertByTime, h]
      · rw [insertByTime, if_neg h]
        simp only [List.mem_cons, ih]
        tauto

theorem length_insertByTime (m : HistoryMsg) (l : List HistoryMsg) :
    (insertByTime m l).length = l.length + 1 := by
  induction l with
  | nil => rfl
  | cons x xs ih =>
      by_cases h : byTime m x <;> simp [insertByTime, h, ih]

theorem pairwise_insertByTime {m : HistoryMsg} {l : List HistoryMsg}
    (h : List.Pairwise
      (fun a b : HistoryMsg => a.created_at ≤ b.created_at) l) :
    List.Pairwise (fun a b : HistoryMsg => a.created_at ≤ b.created_at)
      (insertByTime m l) := by
  induction l with
  | nil => simp [insertByTime]
  | cons x xs ih =>
      obtain ⟨hx, hxs⟩ := List.pairwise_cons.mp h
      by_cases hmx : byTime m x
      · have hm : m.created_at ≤ x.created_at := by
          simpa [byTime] using hmx
        rw [insertByTime, if_pos hmx]
        refine List.pairwise_cons.mpr ⟨?_, h⟩
        intro y hy
        rcases List.mem_cons.mp hy with rfl | hy2
        · exact hm
        · exact le_trans hm (hx y hy2)
      · have hm : x.created_at ≤ m.created_at := by
          have : ¬ m.created_at ≤ x.created_at := by
            simpa [byTime] using hmx
          omega
        rw [insertByTime, if_neg hmx]
        refine List.pairwise_cons.mpr ⟨?_, ih hxs⟩
        intro y hy
        rcases mem_insertByTime.mp hy with rfl | hy2
        · exact hm
        · exact hx y hy2

theorem pairwise_sortByTime (l : List HistoryMsg) :
    List.Pairwise (fun a b : HistoryMsg => a.created_at ≤ b.created_at)
      (sortByTime l) := by
  induction l with
  | nil => simp [sortByTime]
  | cons m rest ih => exact pairwise_insertByTime ih

theorem length_sortByTime (l : List HistoryMsg) :
    (sortByTime l).length = l.length := by
  induction l with
  | nil => rfl
  | cons m rest ih => simp [sortByTime, length_insertByTime, ih]

theorem mem_sortByTime {a : HistoryMsg} {l : List HistoryMsg} :
    a ∈ sortByTime l ↔ a ∈ l := by
  induction l with
  | nil => simp [sortByTime]
  | cons m rest ih =>
      rw [sortByTime, mem_insertByTime, ih, List.mem_cons]

theorem pairwise_le_getLast :
    ∀ {l : List HistoryMsg},
      List.Pairwise
        (fun a b : HistoryMsg => a.created_at ≤ b.created_at) l →
      ∀ {lastm : HistoryMsg}, l.getLast? = some lastm →
      ∀ a ∈ l, a.created_at ≤ lastm.created_at := by
  intro l
  induction l with
  | nil => intro _ lastm hl; simp at hl
  | cons x xs ih =>
      intro hp lastm hl a ha
      cases xs with
      | nil =>
          rw [List.getLast?_singleton] at hl
          rcases List.mem_singleton.mp ha with rfl
          rw [Option.some_inj.mp hl]
      | cons y ys =>
          have hl2 : (y :: ys).getLast? = some lastm := by
            rw [List.getLast?_cons_cons] at hl
            exact hl
          obtain ⟨hx, hxs⟩ := List.pairwise_cons.mp hp
          rcases List.mem_cons.mp ha with rfl | ha2
          · exact hx lastm (List.mem_of_mem_getLast? hl2)
          · exact ih hxs hl2 a ha2

theorem renderHistoryLoop_eq_filterMap (render : String → String)
    (l : List HistoryMsg) :
    renderHistoryLoop render l = l.filterMap (renderHistoryMsg render) := by
  induction l with
  | nil => rfl
  | cons m rest ih =>
      cases h : renderHistoryMsg render m <;>
        simp [renderHistoryLoop, h, ih]

/-- C7: loading the history of a restored tab sorts the fetched messages
ascending by timestamp before rendering, a per-entry text extraction skips
entries with no usable text instead of failing the load, and the tab's
`parentMessageUuid` ends at the uuid of the last message by timestamp (a
maximal-timestamp entry of the payload). -/
theorem loadHistory_sorted_spec (render : String → String) (tab : ChatTab)
    (d : ConversationData) (msgs : List HistoryMsg)
    (hconv : tab.conversationId.isSome = true)
    (hempty : tab.messages = [])
    (hd : d.chat_messages = some msgs) (hne : msgs ≠ []) :
    (loadConversationHistory render tab (some d)).2 =
      (sortByTime msgs).filterMap (renderHistoryMsg render) ∧
    List.Pairwise (fun a b : HistoryMsg => a.created_at ≤ b.created_at)
      (sortByTime msgs) ∧
    (∃ lastm, (sortByTime msgs).getLast? = some lastm ∧
      (loadConversationHistory render tab (some d)).1.parentMessageUuid =
        some lastm.uuid ∧
      ∀ m ∈ msgs, m.created_at ≤ lastm.created_at) ∧
    (∀ m : HistoryMsg, extractText m = "" →
      renderHistoryMsg render m = none) := by
  have hnone : tab.conversationId.isNone = false := by
    cases h : tab.conversationId with
    | none => rw [h] at hconv; simp at hconv
    | some c => rfl
  have hcond : ¬ (tab.conversationId.isNone = true ∨ tab.messages ≠ []) := by
    simp [hnone, hempty]
  have hsne : sortByTime msgs ≠ [] := by
    intro h
    have := length_sortByTime msgs
    rw [h] at this
    exact hne (List.length_eq_zero.mp this.symm)
  obtain ⟨lastm, hlast⟩ :
      ∃ lastm, (sortByTime msgs).getLast? = some lastm := by
    cases h : (sortByTime msgs).getLast? with
    | none =>
        exact absurd (List.getLast?_isSome.mpr hsne) (by simp [h])
    | some x => exact ⟨x, rfl⟩
  refine ⟨?_, pairwise_sortByTime msgs, ⟨lastm, hlast, ?_, ?_⟩, ?_⟩
  · simp only [loadConversationHistory, if_neg hcond, hd]
    exact renderHistoryLoop_eq_filterMap render _
  · simp only [loadConversationHistory, if_neg hcond, hd, hlast]
    cases hn : d.name with
    | none => rfl
    | some n =>
        by_cases hcondn : n ≠ "" ∧ jsTrim n ≠ "" <;> simp [hcondn]
  · intro m hm
    exact pairwise_le_getLast (pairwise_sortByTime msgs) hlast m
      (mem_sortByTime.mpr hm)
  · intro m hm
    simp [renderHistoryMsg, hm]

/-- C7 witness: a history payload of three out-of-order messages, one of
which has no extractable text, loads onto a fresh restored tab: rendering
follows the time-sorted order with the malformed entry skipped, and
`parentMessageUuid` becomes the uuid of the timestamp-maximal message. -/
theorem loadHistory_sorted_spec_witness :
    let m1 : HistoryMsg :=
      { uuid := "u1", text := some "first", sender := "human",
        created_at := 100, content := none }
    let m2 : HistoryMsg :=
      { uuid := "u2", text := none, sender := "assistant",
        created_at := 200, content := some [] }
    let m3 : HistoryMsg :=
      { uuid := "u3", text := some "third", sender := "assistant",
        created_at := 300, content := none }
    let msgs : List HistoryMsg := [m3, m1, m2]
    let d : ConversationData :=
      { name := some "Conv", chat_messages := some msgs }
    let tab : ChatTab :=
      { dummyTab with id := "t1", conversationId := some "c1" }
    let render : String → String := fun s => s
    (loadConversationHistory render tab (some d)).2 =
      (sortByTime msgs).filterMap (renderHistoryMsg render) ∧
    List.Pairwise (fun a b : HistoryMsg => a.created_at ≤ b.created_at)
      (sortByTime msgs) ∧
    (∃ lastm, (sortByTime msgs).getLast? = some lastm ∧
      (loadConversationHistory render tab (some d)).1.parentMessageUuid =
        some lastm.uuid ∧
      ∀ m ∈ msgs, m.created_at ≤ lastm.created_at) ∧
    (∀ m : HistoryMsg, extractText m = "" →
      renderHistoryMsg render m = none) := by
  exact loadHistory_sorted_spec (fun s => s) _ _ _
    (by decide) (by decide) (by decide) (by decide)

end OpenClaude
